import Mathlib

/-!
Verification development for the public-IP resolution engine in `src/ip/app.py`
(OlisDashboard). The Python source is shallowly embedded: pure helper functions
become Lean functions, the HTTP/subprocess collaborators become explicit input
oracles, and the module-global cache becomes explicit state passing. Exceptions
caught by the source are modelled by `Option` results; timestamps and latency
figures (Python floats) are modelled as exact rationals.
-/

set_option autoImplicit false

namespace IpApp

/-- A JSON value as produced by Python's `json` decoding: `null` → `None`,
booleans, numbers (modelled as integers), strings, arrays, objects. -/
inductive Json where
  | null
  | bool (b : Bool)
  | num (n : Int)
  | str (s : String)
  | arr (xs : List Json)
  | obj (kvs : List (String × Json))

/-- Python `dict.get(key)` on a decoded JSON object (association list). -/
def pyGet (kvs : List (String × Json)) (key : String) : Option Json :=
  match kvs with
  | [] => none
  | (k, v) :: rest => if k = key then some v else pyGet rest key

/-- The single-quote character Python places around strings in `repr`
output. -/
def pyQuote : String :=
  (Char.ofNat 39).toString

mutual

/-- Python `repr` on a decoded JSON value (`None` → `"None"`, `True`/`False`,
decimal integers, single-quoted strings, bracketed containers). -/
def pyRepr : Json → String
  | .null => "None"
  | .bool true => "True"
  | .bool false => "False"
  | .num n => toString n
  | .str s => pyQuote ++ s ++ pyQuote
  | .arr xs => "[" ++ pyReprSeq xs ++ "]"
  | .obj kvs => "\x7b" ++ pyReprKvs kvs ++ "\x7d"

/-- Comma-separated `repr`s of the elements of a Python list. -/
def pyReprSeq : List Json → String
  | [] => ""
  | [j] => pyRepr j
  | j :: rest => pyRepr j ++ ", " ++ pyReprSeq rest

/-- Comma-separated quoted-key/`repr`-value entries of a Python dict. -/
def pyReprKvs : List (String × Json) → String
  | [] => ""
  | [(k, v)] => pyQuote ++ k ++ pyQuote ++ ": " ++ pyRepr v
  | (k, v) :: rest =>
      pyQuote ++ k ++ pyQuote ++ ": " ++ pyRepr v ++ ", " ++ pyReprKvs rest

end

/-- Python `str` on a decoded JSON value: identity on strings, `repr`
otherwise (for `None`, booleans, numbers and containers `str` = `repr`). -/
def pyStr : Json → String
  | .str s => s
  | j => pyRepr j

/-- Python `str.upper()`: uppercase every character (ASCII-relevant here:
provider country codes). -/
def pyUpper (s : String) : String :=
  ⟨s.data.map Char.toUpper⟩

/-- Python `str.startswith(pre)`: character-wise prefix test. -/
def startsWithChars : List Char → List Char → Bool
  | [], _ => true
  | _ :: _, [] => false
  | p :: ps, c :: cs => p = c && startsWithChars ps cs

/-- Python `str.split(".")`: split a character list at every dot (empty
pieces preserved, as in Python). -/
def splitOnDot : List Char → List (List Char)
  | [] => [[]]
  | c :: rest =>
    if c = '.' then [] :: splitOnDot rest
    else
      match splitOnDot rest with
      | [] => [[c]]
      | g :: gs => (c :: g) :: gs

/-- One dotted-quad octet as accepted by Python's `ipaddress` module:
1–3 decimal digits, no leading zero (except `"0"` itself), value ≤ 255. -/
def isValidOctet (cs : List Char) : Bool :=
  !cs.isEmpty && cs.length ≤ 3 && cs.all Char.isDigit &&
    (cs.length == 1 || cs.headD '0' != '0') &&
    cs.foldl (fun acc c => acc * 10 + (c.toNat - 48)) 0 ≤ 255

/-- `is_valid_ipv4` from `app.py`: `ipaddress.ip_address(ip_str)` succeeds and
the parsed address has version 4, i.e. the string is a strict IPv4 dotted-quad
(four valid octets separated by dots). IPv6 literals, hostnames and malformed
octets all yield `false` (either a parse failure or version ≠ 4). -/
def is_valid_ipv4 (ip_str : String) : Bool :=
  match splitOnDot ip_str.data with
  | [a, b, c, d] => isValidOctet a && isValidOctet b && isValidOctet c && isValidOctet d
  | _ => false

/-- A raw HTTP response as observed by `get_json`: status code, declared
Content-Type, decoded body (`none` when `r.json()` raises `ValueError`),
observed transport latency and body length. -/
structure RawResponse where
  status : Nat
  contentType : String
  body : Option Json
  elapsedMs : ℚ
  payloadBytes : Nat

/-- Rejection tags, one per early-return branch of `get_json` (the source logs
a distinct warning per branch and returns `None` for all of them). -/
inductive Reject where
  | status
  | contentType
  | parse
  | shape
  | badIp
  deriving DecidableEq, Repr

/-- The validation chain of `get_json` (`app.py` lines 72–98), applied in
source order with short-circuit on the first failing check:
status == 200, Content-Type starts with `application/json`, body decodes as
JSON, decoded value is a dict, `data.get("ip")` is a string that passes
`is_valid_ipv4`. On success the decoded object is returned. -/
def validateResp (r : RawResponse) : Except Reject Json :=
  if r.status ≠ 200 then .error .status
  else if ¬ startsWithChars "application/json".data r.contentType.data then
    .error .contentType
  else
    match r.body with
    | none => .error .parse
    | some data =>
      match data with
      | .obj kvs =>
        match pyGet kvs "ip" with
        | some (.str ip) =>
            if is_valid_ipv4 ip then .ok (Json.obj kvs) else .error .badIp
        | _ => .error .badIp
      | _ => .error .shape

/-- `get_json` from `app.py`: the argument is what the HTTP call produced
(`none` models a raised `requests.RequestException`, caught by the source and
turned into `None`). On validation success it returns the decoded dict
together with the measured latency and payload size, otherwise `None`. -/
def get_json (resp : Option RawResponse) : Option (Json × ℚ × Nat) :=
  match resp with
  | none => none
  | some r =>
    match validateResp r with
    | .ok j => some (j, r.elapsedMs, r.payloadBytes)
    | .error _ => none

/-- A provider descriptor from the static list in `fetch_ip_metadata`:
display name, URL, and the provider-specific country-code key. -/
structure Provider where
  name : String
  url : String
  codeKey : String
  deriving DecidableEq

/-- The static provider list of `fetch_ip_metadata` (`app.py` lines 140–145). -/
def providers : List Provider :=
  [⟨"ipapi", "https://ipapi.co/json", "country_code"⟩,
   ⟨"ipwhois", "https://ipwho.is/", "country_code"⟩,
   ⟨"ifconfig", "https://ifconfig.co/json", "country_iso"⟩,
   ⟨"ipsb", "https://api.ip.sb/geoip", "country_code"⟩]

/-- The successful-fetch record assembled by `fetch_ip_metadata`. -/
structure Metadata where
  provider : String
  ip : String
  country_code : String
  http_latency_ms : ℚ
  http_payload_bytes : Nat
  attempt : Nat
  deriving DecidableEq

/-- The body of the `try` block in `fetch_ip_metadata` (lines 155–174):
`ip = j["ip"]` (a `KeyError`, caught by the source's `except`, yields `none`,
as does a non-string value — unreachable after validation), and
`cc = str(j.get(code_key, "")).upper()`. -/
def extractMeta (p : Provider) (j : Json) (lat : ℚ) (bytes : Nat)
    (attempt : Nat) : Option Metadata :=
  match j with
  | .obj kvs =>
    match pyGet kvs "ip" with
    | some (.str ip) =>
        some ⟨p.name, ip,
              pyUpper (pyStr ((pyGet kvs p.codeKey).getD (.str ""))),
              lat, bytes, attempt⟩
    | _ => none
  | _ => none

/-- One iteration of the provider loop: issue the HTTP call (modelled by the
network oracle `net`, keyed by provider name), validate via `get_json`, and on
success extract the metadata for this attempt number. `none` means this
provider is skipped and the loop continues. -/
def tryProvider (net : String → Option RawResponse) (p : Provider)
    (attempt : Nat) : Option Metadata :=
  match get_json (net p.name) with
  | none => none
  | some (j, lat, bytes) => extractMeta p j lat bytes attempt

/-- Outcome of the provider loop: the first successful metadata (if any) and
the names of the providers actually contacted, in order. -/
structure FetchOutcome where
  result : Option Metadata
  contacted : List String

/-- The `for attempt, (name, url, code_key) in enumerate(..., start=1)` loop of
`fetch_ip_metadata`: providers are contacted in order; the first success stops
the loop; a rejected provider is skipped and the attempt counter advances. -/
def fetchLoop (net : String → Option RawResponse) :
    List Provider → Nat → FetchOutcome
  | [], _ => ⟨none, []⟩
  | p :: rest, attempt =>
    match tryProvider net p attempt with
    | some m => ⟨some m, [p.name]⟩
    | none =>
      let r := fetchLoop net rest (attempt + 1)
      ⟨r.result, p.name :: r.contacted⟩

/-- `fetch_ip_metadata` from `app.py`: the randomized order produced by
`random.sample(providers, len(providers))` is passed in explicitly; the loop
starts with attempt counter 1 and returns `none` (the source's `{}`) when
every provider was rejected. -/
def fetch_ip_metadata (net : String → Option RawResponse)
    (order : List Provider) : FetchOutcome :=
  fetchLoop net order 1

/-- Python's `\s` character class (`re` module, ASCII range). -/
def isWs (c : Char) : Bool :=
  c = ' ' ∨ c = '\t' ∨ c = '\n' ∨ c = '\r' ∨ c.toNat = 11 ∨ c.toNat = 12

/-- Match a literal character sequence at the head of the input, returning the
remainder on success. -/
def litChars : List Char → List Char → Option (List Char)
  | [], cs => some cs
  | _ :: _, [] => none
  | l :: ls, c :: cs => if c = l then litChars ls cs else none

/-- Attempt the regex `time[=<]?\s*([\d.]+)\s*ms` at the head of the input,
returning the captured `[\d.]+` group. The greedy left-to-right strategy is
exact here: no character matched by a later regex element can extend an
earlier `?`/`*`/`+` element. -/
def matchTimeAt (cs : List Char) : Option String :=
  match litChars "time".data cs with
  | none => none
  | some rest0 =>
    let rest1 :=
      match rest0 with
      | c :: tl => if c = '=' ∨ c = '<' then tl else rest0
      | [] => rest0
    let rest2 := rest1.dropWhile isWs
    let digits := rest2.takeWhile (fun c => c.isDigit ∨ c = '.')
    if digits.isEmpty then none
    else
      let rest3 := (rest2.drop digits.length).dropWhile isWs
      match litChars "ms".data rest3 with
      | some _ => some (String.mk digits)
      | none => none

/-- `re.search`: try the pattern at every start position, left to right. -/
def searchTime : List Char → Option String
  | [] => none
  | l =>
    match matchTimeAt l with
    | some s => some s
    | none =>
      match l with
      | [] => none
      | _ :: tl => searchTime tl

/-- Python `float(s)` restricted to strings over digits and dots (all that the
captured group can contain): defined iff there is at least one digit and at
most one dot; the value is the exact decimal. -/
def pyFloat (s : String) : Option ℚ :=
  let cs := s.data
  if cs.any Char.isDigit ∧ (cs.filter (· = '.')).length ≤ 1 then
    let intPart := cs.takeWhile Char.isDigit
    let fracPart := (cs.drop (intPart.length + 1)).takeWhile Char.isDigit
    let iv : ℚ := intPart.foldl (fun acc c => acc * 10 + (c.toNat - 48 : ℚ)) 0
    let fv : ℚ := fracPart.foldl (fun acc c => acc * 10 + (c.toNat - 48 : ℚ)) 0
    some (iv + fv / (10 : ℚ) ^ fracPart.length)
  else none

/-- `ping_ip` from `app.py`: the argument is the subprocess outcome — `none`
models any exception from `subprocess.run` (failure to start, the 3-second
timeout), `some out` the captured stdout (the exit code is ignored by the
source). The stdout is scanned with `re.search(r"time[=<]?\s*([\d.]+)\s*ms")`;
no match, or a captured group that `float()` rejects (the `except` catches the
`ValueError`), yields `None`. -/
def ping_ip (procOut : Option String) : Option ℚ :=
  match procOut with
  | none => none
  | some out =>
    match searchTime out.data with
    | none => none
    | some captured => pyFloat captured

/-- `CACHE_TTL_SECONDS` from `app.py`. -/
def CACHE_TTL_SECONDS : ℚ := 30

/-- The module-global cache of `app.py`: `_ip_cache_data` (a dict or `None`,
modelled as `Option Metadata` — the cache only ever stores non-empty dicts)
and `_ip_cache_timestamp`. -/
structure CacheState where
  data : Option Metadata
  timestamp : ℚ
  deriving DecidableEq

/-- The value returned by a successful `get_ip_data` call. -/
structure ResolutionResult where
  provider : String
  ip : String
  country_code : String
  ping_ms : ℚ
  deriving DecidableEq

/-- Full observable outcome of one `get_ip_data` call: the returned value
(`none` models the source's empty dict), the cache state after the call, the
`cache_hit` flag, the providers contacted, and whether `ping_ip` was invoked. -/
structure ResolveOutcome where
  result : Option ResolutionResult
  state : CacheState
  cacheHit : Bool
  contacted : List String
  probed : Bool
  deriving DecidableEq

/-- `get_ip_data` from `app.py` (the spec's `resolve()`): the globals become
the explicit `st`/returned state, `now = time.monotonic()`, and the two
external collaborators (HTTP, subprocess) are the oracles `net` and `procOut`.
Cache hit iff `_ip_cache_data` is truthy and `now - _ip_cache_timestamp <
CACHE_TTL_SECONDS`; a miss runs the provider loop, returns empty on
exhaustion (no cache write, no ping), else writes the cache; both surviving
paths ping `metadata["ip"]` and map a `None` latency to `0.0`. -/
def get_ip_data (st : CacheState) (now : ℚ) (order : List Provider)
    (net : String → Option RawResponse) (procOut : Option String) :
    ResolveOutcome :=
  let hit : Option Metadata :=
    match st.data with
    | some cached =>
        if now - st.timestamp < CACHE_TTL_SECONDS then some cached else none
    | none => none
  match hit with
  | some m =>
    let latency := ping_ip procOut
    ⟨some ⟨m.provider, m.ip, m.country_code, latency.getD 0⟩, st, true, [], true⟩
  | none =>
    let f := fetch_ip_metadata net order
    match f.result with
    | none => ⟨none, st, false, f.contacted, false⟩
    | some m =>
      let latency := ping_ip procOut
      ⟨some ⟨m.provider, m.ip, m.country_code, latency.getD 0⟩,
       ⟨some m, now⟩, false, f.contacted, true⟩

/-! ### Helper lemmas -/

/-- A successful provider attempt carries that provider's name and the attempt
number it was made at. -/
theorem tryProvider_some (net : String → Option RawResponse) (p : Provider)
    (i : Nat) (m : Metadata) (h : tryProvider net p i = some m) :
    m.provider = p.name ∧ m.attempt = i := by
  unfold tryProvider at h
  split at h
  · exact absurd h (by simp)
  · unfold extractMeta at h
    split at h
    · split at h
      · injection h with h'
        subst h'
        exact ⟨rfl, rfl⟩
      · exact absurd h (by simp)
    · exact absurd h (by simp)

/-- Whether a provider attempt is rejected does not depend on the attempt
counter (the counter only ends up inside the metadata on success). -/
theorem tryProvider_none_attempt (net : String → Option RawResponse)
    (p : Provider) (i j : Nat) (h : tryProvider net p i = none) :
    tryProvider net p j = none := by
  cases hg : get_json (net p.name) with
  | none => simp [tryProvider, hg]
  | some v =>
    obtain ⟨jv, lat, bytes⟩ := v
    simp only [tryProvider, hg] at h ⊢
    cases jv with
    | obj kvs =>
      simp only [extractMeta] at h ⊢
      cases hip : pyGet kvs "ip" with
      | none => simp [hip]
      | some v =>
        cases v <;> simp_all [hip]
    | null => simp [extractMeta]
    | bool b => simp [extractMeta]
    | num n => simp [extractMeta]
    | str s => simp [extractMeta]
    | arr xs => simp [extractMeta]

/-- If every provider in the list is rejected, the loop contacts them all, in
order, and produces no result. -/
theorem fetchLoop_all_fail (net : String → Option RawResponse)
    (l : List Provider) (k : Nat)
    (h : ∀ p ∈ l, ∀ i, tryProvider net p i = none) :
    fetchLoop net l k = ⟨none, l.map Provider.name⟩ := by
  induction l generalizing k with
  | nil => rfl
  | cons p rest ih =>
    have hp := h p (by simp) k
    simp only [fetchLoop, hp, ih (k + 1) (fun q hq i => h q (by simp [hq]) i),
      List.map_cons]

/-- The loop produces no result exactly when every provider in the list is
rejected (at every attempt number). -/
theorem fetchLoop_none_iff (net : String → Option RawResponse)
    (l : List Provider) (k : Nat) :
    (fetchLoop net l k).result = none ↔
      ∀ p ∈ l, ∀ i, tryProvider net p i = none := by
  induction l generalizing k with
  | nil => simp [fetchLoop]
  | cons p rest ih =>
    constructor
    · intro h q hq i
      unfold fetchLoop at h
      cases htry : tryProvider net p k with
      | some m => rw [htry] at h; exact absurd h (by simp)
      | none =>
        rw [htry] at h
        simp only [List.mem_cons] at hq
        rcases hq with rfl | hq
        · exact tryProvider_none_attempt net q k i htry
        · exact (ih (k + 1)).mp h q hq i
    · intro h
      unfold fetchLoop
      rw [h p (by simp) k]
      exact (ih (k + 1)).mpr (fun q hq i => h q (by simp [hq]) i)

/-- Splitting the loop at the first successful provider: everything before it
fails, it succeeds, and the loop stops there. -/
theorem fetchLoop_first_success (net : String → Option RawResponse)
    (pre : List Provider) (b : Provider) (post : List Provider) (k : Nat)
    (m : Metadata)
    (hpre : ∀ p ∈ pre, ∀ i, tryProvider net p i = none)
    (hb : tryProvider net b (k + pre.length) = some m) :
    fetchLoop net (pre ++ b :: post) k =
      ⟨some m, pre.map Provider.name ++ [b.name]⟩ := by
  induction pre generalizing k with
  | nil =>
    simp only [List.nil_append, List.map_nil]
    unfold fetchLoop
    rw [show k + [].length = k from by simp] at hb
    rw [hb]
  | cons p rest ih =>
    have hp := hpre p (by simp) k
    simp only [List.cons_append, List.map_cons, List.cons_append]
    unfold fetchLoop
    rw [hp]
    have heq : k + 1 + rest.length = k + (p :: rest).length := by
      simp [List.length_cons]; omega
    rw [ih (k + 1) (fun q hq i => hpre q (by simp [hq]) i) (heq ▸ hb)]

/-- A successful `get_ip_data` call leaves the cache holding metadata whose
identity fields match the returned result, and it always pings. -/
theorem resolve_success_state (st : CacheState) (now : ℚ)
    (order : List Provider) (net : String → Option RawResponse)
    (procOut : Option String) (r : ResolutionResult)
    (h : (get_ip_data st now order net procOut).result = some r) :
    ∃ m, (get_ip_data st now order net procOut).state.data = some m ∧
      m.provider = r.provider ∧ m.ip = r.ip ∧
      m.country_code = r.country_code ∧
      (get_ip_data st now order net procOut).probed = true ∧
      r.ping_ms = (ping_ip procOut).getD 0 := by
  cases hd : st.data with
  | some cached =>
    by_cases hc : now - st.timestamp < CACHE_TTL_SECONDS
    · simp only [get_ip_data, hd, if_pos hc, Option.some.injEq] at h
      subst h
      exact ⟨cached, by simp [get_ip_data, hd, hc], rfl, rfl, rfl,
        by simp [get_ip_data, hd, hc], rfl⟩
    · simp only [get_ip_data, hd, if_neg hc] at h
      cases hf : (fetch_ip_metadata net order).result with
      | none => rw [hf] at h; exact absurd h (by simp)
      | some m =>
        rw [hf] at h
        simp only [Option.some.injEq] at h
        subst h
        exact ⟨m, by simp [get_ip_data, hd, hc, hf], rfl, rfl, rfl,
          by simp [get_ip_data, hd, hc, hf], rfl⟩
  | none =>
    simp only [get_ip_data, hd] at h
    cases hf : (fetch_ip_metadata net order).result with
    | none => rw [hf] at h; exact absurd h (by simp)
    | some m =>
      rw [hf] at h
      simp only [Option.some.injEq] at h
      subst h
      exact ⟨m, by simp [get_ip_data, hd, hf], rfl, rfl, rfl,
        by simp [get_ip_data, hd, hf], rfl⟩

/-! ### Claim theorems -/

/-- C1: the validator applies its checks in a fixed order, short-circuiting on
the first failure — status 200, `application/json` content-type prefix, body
parses as a JSON mapping, string `"ip"` value, valid IPv4 dotted-quad. Any
status ≠ 200 rejects regardless of body; IPv6 literals, hostnames and
malformed octets reject; the well-formed status-200 response
`{"ip": "203.0.113.5", "country_code": "us"}` validates and the extracted
country code is `"US"`. -/
theorem validator_fixed_order :
    (∀ r : RawResponse, r.status ≠ 200 → validateResp r = .error .status) ∧
    (∀ r : RawResponse, r.status = 200 →
        ¬ startsWithChars "application/json".data r.contentType.data →
        validateResp r = .error .contentType) ∧
    (∀ lat : ℚ, ∀ b : Nat,
        validateResp ⟨200, "application/json", none, lat, b⟩ = .error .parse) ∧
    (∀ xs : List Json, ∀ lat : ℚ, ∀ b : Nat,
        validateResp ⟨200, "application/json", some (.arr xs), lat, b⟩ =
          .error .shape) ∧
    (∀ v : String, is_valid_ipv4 v = false →
        validateResp ⟨200, "application/json",
            some (.obj [("ip", .str v)]), 0, 0⟩ = .error .badIp) ∧
    is_valid_ipv4 "2001:db8::1" = false ∧
    is_valid_ipv4 "example.com" = false ∧
    is_valid_ipv4 "999.1.1.1" = false ∧
    tryProvider
        (fun _ => some ⟨200, "application/json",
          some (.obj [("ip", .str "203.0.113.5"), ("country_code", .str "us")]),
          12, 48⟩)
        ⟨"ipapi", "https://ipapi.co/json", "country_code"⟩ 1 =
      some ⟨"ipapi", "203.0.113.5", "US", 12, 48, 1⟩ := by
  refine ⟨?_, ?_, ?_, ?_, ?_, by decide, by decide, by decide, by rfl⟩
  · intro r h
    simp [validateResp, h]
  · intro r h1 h2
    simp [validateResp, h1, h2]
  · intro lat b
    simp [validateResp]
    decide
  · intro xs lat b
    simp [validateResp]
    decide
  · intro v h
    simp [validateResp, pyGet, h]
    decide

/-- C1 witness: the theorem applied at concrete rejected responses. -/
theorem validator_fixed_order_witness :
    validateResp ⟨404, "application/json",
        some (.obj [("ip", .str "203.0.113.5")]), 0, 0⟩ = .error .status ∧
    validateResp ⟨200, "text/html", none, 0, 0⟩ = .error .contentType ∧
    validateResp ⟨200, "application/json",
        some (.obj [("ip", .str "999.1.1.1")]), 0, 0⟩ = .error .badIp :=
  ⟨validator_fixed_order.1 _ (by decide),
   validator_fixed_order.2.1 _ rfl (by decide),
   validator_fixed_order.2.2.2.2.1 "999.1.1.1"
     validator_fixed_order.2.2.2.2.2.2.2.1⟩

/-- C2: first success wins — with every provider before `b` rejected and `b`
succeeding, the loop's result is `b`'s metadata (provider field `b.name`,
attempt counter `pre.length + 1`, counting from 1) and the contacted
providers are exactly those before `b` plus `b` itself: nothing after `b`
is ever contacted. -/
theorem first_success_wins (net : String → Option RawResponse)
    (pre : List Provider) (b : Provider) (post : List Provider) (m : Metadata)
    (hpre : ∀ p ∈ pre, ∀ i, tryProvider net p i = none)
    (hb : tryProvider net b (1 + pre.length) = some m) :
    (fetch_ip_metadata net (pre ++ b :: post)).result = some m ∧
    m.provider = b.name ∧ m.attempt = pre.length + 1 ∧
    (fetch_ip_metadata net (pre ++ b :: post)).contacted =
      pre.map Provider.name ++ [b.name] := by
  have h := fetchLoop_first_success net pre b post 1 m hpre hb
  have hm := tryProvider_some net b (1 + pre.length) m hb
  unfold fetch_ip_metadata
  rw [h]
  exact ⟨rfl, hm.1, hm.2.trans (Nat.add_comm 1 pre.length), rfl⟩

/-- C2 witness: order [ipapi (transport failure), ipwhois (succeeds),
ifconfig (would succeed), ipsb (would succeed)] — the result is ipwhois at
attempt 2 and neither ifconfig nor ipsb is contacted. -/
theorem first_success_wins_witness :
    (fetch_ip_metadata
        (fun nm => if nm = "ipapi" then none
          else some ⟨200, "application/json",
            some (.obj [("ip", .str "203.0.113.5"), ("country_code", .str "us")]),
            12, 48⟩)
        providers).result =
      some ⟨"ipwhois", "203.0.113.5", "US", 12, 48, 2⟩ ∧
    (⟨"ipwhois", "203.0.113.5", "US", 12, 48, 2⟩ : Metadata).provider =
      "ipwhois" ∧
    (⟨"ipwhois", "203.0.113.5", "US", 12, 48, 2⟩ : Metadata).attempt = 1 + 1 ∧
    (fetch_ip_metadata
        (fun nm => if nm = "ipapi" then none
          else some ⟨200, "application/json",
            some (.obj [("ip", .str "203.0.113.5"), ("country_code", .str "us")]),
            12, 48⟩)
        providers).contacted = ["ipapi", "ipwhois"] := by
  have h := first_success_wins
    (fun nm => if nm = "ipapi" then none
      else some ⟨200, "application/json",
        some (.obj [("ip", .str "203.0.113.5"), ("country_code", .str "us")]),
        12, 48⟩)
    [⟨"ipapi", "https://ipapi.co/json", "country_code"⟩]
    ⟨"ipwhois", "https://ipwho.is/", "country_code"⟩
    [⟨"ifconfig", "https://ifconfig.co/json", "country_iso"⟩,
     ⟨"ipsb", "https://api.ip.sb/geoip", "country_code"⟩]
    ⟨"ipwhois", "203.0.113.5", "US", 12, 48, 2⟩
    (by intro p hp i
        simp only [List.mem_singleton] at hp
        subst hp
        rfl)
    (by rfl)
  exact ⟨h.1, h.2.1, h.2.2.1, h.2.2.2⟩

/-- The resolver returns the empty result exactly when the cache misses and
the provider loop is exhausted; the probe outcome plays no part. -/
theorem resolve_result_none_iff (st : CacheState) (now : ℚ)
    (order : List Provider) (net : String → Option RawResponse)
    (procOut : Option String) :
    (get_ip_data st now order net procOut).result = none ↔
      ((st.data = none ∨ ¬ now - st.timestamp < CACHE_TTL_SECONDS) ∧
        (fetch_ip_metadata net order).result = none) := by
  cases hd : st.data with
  | some cached =>
    by_cases hc : now - st.timestamp < CACHE_TTL_SECONDS
    · simp [get_ip_data, hd, hc]
    · cases hf : (fetch_ip_metadata net order).result with
      | none => simp [get_ip_data, hd, hc, hf]
      | some m => simp [get_ip_data, hd, hc, hf]
  | none =>
    cases hf : (fetch_ip_metadata net order).result with
    | none => simp [get_ip_data, hd, hf]
    | some m => simp [get_ip_data, hd, hf]

/-- C3: exhaustion is total and side-effect free — on a cache miss with every
configured provider rejecting, the resolver contacts each provider of the
randomized order exactly once (N attempts for N configured providers, no
retries), returns the empty result, writes nothing to the cache and never
invokes the probe. -/
theorem exhaustion_total (st : CacheState) (now : ℚ)
    (order : List Provider) (net : String → Option RawResponse)
    (procOut : Option String)
    (hmiss : st.data = none ∨ ¬ now - st.timestamp < CACHE_TTL_SECONDS)
    (horder : order.Perm providers)
    (hfail : ∀ p ∈ order, ∀ i, tryProvider net p i = none) :
    (get_ip_data st now order net procOut).result = none ∧
    (get_ip_data st now order net procOut).state = st ∧
    (get_ip_data st now order net procOut).probed = false ∧
    (get_ip_data st now order net procOut).contacted =
      order.map Provider.name ∧
    (get_ip_data st now order net procOut).contacted.length =
      providers.length ∧
    ∀ p ∈ providers,
      (get_ip_data st now order net procOut).contacted.count p.name = 1 := by
  have hloop : fetch_ip_metadata net order =
      ⟨none, order.map Provider.name⟩ := fetchLoop_all_fail net order 1 hfail
  have hred : get_ip_data st now order net procOut =
      ⟨none, st, false, order.map Provider.name, false⟩ := by
    rcases hmiss with hd | hc
    · simp [get_ip_data, hd, hloop]
    · cases hd : st.data with
      | none => simp [get_ip_data, hd, hloop]
      | some cached => simp [get_ip_data, hd, hc, hloop]
  rw [hred]
  refine ⟨rfl, rfl, rfl, rfl, ?_, ?_⟩
  · simp [horder.length_eq]
  · intro p hp
    have hperm : (order.map Provider.name).Perm (providers.map Provider.name) :=
      horder.map Provider.name
    rw [hperm.count_eq]
    fin_cases hp <;> decide

/-- C3 witness: cold cache, all four providers failing at the transport
layer — empty result, untouched cache, no probe, four contacts, one each. -/
theorem exhaustion_total_witness :
    (get_ip_data ⟨none, 0⟩ 5 providers (fun _ => none) none).result = none ∧
    (get_ip_data ⟨none, 0⟩ 5 providers (fun _ => none) none).state =
      (⟨none, 0⟩ : CacheState) ∧
    (get_ip_data ⟨none, 0⟩ 5 providers (fun _ => none) none).probed = false ∧
    (get_ip_data ⟨none, 0⟩ 5 providers (fun _ => none) none).contacted =
      providers.map Provider.name ∧
    (get_ip_data ⟨none, 0⟩ 5 providers (fun _ => none) none).contacted.length =
      providers.length ∧
    ∀ p ∈ providers,
      (get_ip_data ⟨none, 0⟩ 5 providers
        (fun _ => none) none).contacted.count p.name = 1 :=
  exhaustion_total ⟨none, 0⟩ 5 providers (fun _ => none) none
    (Or.inl rfl) (List.Perm.refl providers) (fun _ _ _ => rfl)

/-- C4: the cache TTL boundary is strict — with a cached entry, any call
strictly before `stored_at + TTL` is a pure cache hit (cached identity reused,
no provider contact, state untouched); a call at `stored_at + TTL` or later
takes the fresh provider loop; an expired entry is not deleted on a failed
refresh and is overwritten by the next successful fetch. -/
theorem cache_ttl_strict (st : CacheState) (order : List Provider)
    (net : String → Option RawResponse) (procOut : Option String) :
    (∀ m : Metadata, ∀ eps : ℚ, st.data = some m → 0 < eps →
        get_ip_data st (st.timestamp + CACHE_TTL_SECONDS - eps) order net
            procOut =
          ⟨some ⟨m.provider, m.ip, m.country_code, (ping_ip procOut).getD 0⟩,
           st, true, [], true⟩) ∧
    (∀ eps : ℚ, 0 ≤ eps →
        (get_ip_data st (st.timestamp + CACHE_TTL_SECONDS + eps) order net
            procOut).cacheHit = false ∧
        (get_ip_data st (st.timestamp + CACHE_TTL_SECONDS + eps) order net
            procOut).contacted = (fetch_ip_metadata net order).contacted) ∧
    (∀ now : ℚ, ¬ now - st.timestamp < CACHE_TTL_SECONDS →
        ((fetch_ip_metadata net order).result = none →
            (get_ip_data st now order net procOut).state = st) ∧
        (∀ m : Metadata, (fetch_ip_metadata net order).result = some m →
            (get_ip_data st now order net procOut).state = ⟨some m, now⟩)) := by
  have fresh : ∀ now : ℚ, ¬ now - st.timestamp < CACHE_TTL_SECONDS →
      (get_ip_data st now order net procOut).cacheHit = false ∧
      (get_ip_data st now order net procOut).contacted =
        (fetch_ip_metadata net order).contacted ∧
      ((fetch_ip_metadata net order).result = none →
          (get_ip_data st now order net procOut).state = st) ∧
      (∀ m : Metadata, (fetch_ip_metadata net order).result = some m →
          (get_ip_data st now order net procOut).state = ⟨some m, now⟩) := by
    intro now hc
    cases hd : st.data with
    | some cached =>
      cases hf : (fetch_ip_metadata net order).result with
      | none =>
        refine ⟨?_, ?_, ?_, ?_⟩ <;> simp [get_ip_data, hd, hc, hf]
      | some m =>
        refine ⟨?_, ?_, ?_, ?_⟩ <;> simp [get_ip_data, hd, hc, hf]
    | none =>
      cases hf : (fetch_ip_metadata net order).result with
      | none =>
        refine ⟨?_, ?_, ?_, ?_⟩ <;> simp [get_ip_data, hd, hf]
      | some m =>
        refine ⟨?_, ?_, ?_, ?_⟩ <;> simp [get_ip_data, hd, hf]
  refine ⟨?_, ?_, ?_⟩
  · intro m eps hd heps
    have hc : st.timestamp + CACHE_TTL_SECONDS - eps - st.timestamp <
        CACHE_TTL_SECONDS := by linarith
    simp [get_ip_data, hd, hc]
  · intro eps heps
    have hc : ¬ st.timestamp + CACHE_TTL_SECONDS + eps - st.timestamp <
        CACHE_TTL_SECONDS := by linarith
    exact ⟨(fresh _ hc).1, (fresh _ hc).2.1⟩
  · intro now hc
    exact ⟨(fresh _ hc).2.2.1, (fresh _ hc).2.2.2⟩

/-- C4 witness: with an entry stored at time 0 and TTL 30, the call at 29.5
(ε = 0.5) is a pure hit and the call at 30 (ε = 0) refreshes; a failed refresh
leaves the expired entry in place and a successful one overwrites it. -/
theorem cache_ttl_strict_witness :
    get_ip_data ⟨some ⟨"ipapi", "203.0.113.5", "US", 12, 48, 1⟩, 0⟩
        (0 + CACHE_TTL_SECONDS - (1 / 2)) providers (fun _ => none) none =
      ⟨some ⟨"ipapi", "203.0.113.5", "US", 0⟩,
       ⟨some ⟨"ipapi", "203.0.113.5", "US", 12, 48, 1⟩, 0⟩, true, [], true⟩ ∧
    (get_ip_data ⟨some ⟨"ipapi", "203.0.113.5", "US", 12, 48, 1⟩, 0⟩
        (0 + CACHE_TTL_SECONDS + 0) providers (fun _ => none) none).cacheHit =
      false ∧
    (get_ip_data ⟨some ⟨"ipapi", "203.0.113.5", "US", 12, 48, 1⟩, 0⟩
        (0 + CACHE_TTL_SECONDS + 0) providers (fun _ => none) none).state =
      (⟨some ⟨"ipapi", "203.0.113.5", "US", 12, 48, 1⟩, 0⟩ : CacheState) := by
  have h := cache_ttl_strict
    ⟨some ⟨"ipapi", "203.0.113.5", "US", 12, 48, 1⟩, 0⟩ providers
    (fun _ => none) none
  refine ⟨?_, (h.2.1 0 le_rfl).1, ?_⟩
  · have := h.1 ⟨"ipapi", "203.0.113.5", "US", 12, 48, 1⟩ (1 / 2) rfl
      (by norm_num)
    simpa using this
  · have hnone : (fetch_ip_metadata (fun _ => (none : Option RawResponse))
        providers).result = none := rfl
    have := (h.2.2 (0 + CACHE_TTL_SECONDS + 0) (by norm_num [CACHE_TTL_SECONDS])).1
      hnone
    simpa using this

/-- C5: identity is idempotent within the TTL window while the probe is always
fresh — a second `resolve()` within TTL of the first successful call's cache
write returns the same provider/ip/country_code, both calls invoke the probe,
and each call's `ping_ms` is its own probe outcome (so the two may differ). -/
theorem identity_idempotent_probe_fresh (st : CacheState) (now1 now2 : ℚ)
    (order1 order2 : List Provider)
    (net1 net2 : String → Option RawResponse) (p1 p2 : Option String)
    (r1 : ResolutionResult)
    (h1 : (get_ip_data st now1 order1 net1 p1).result = some r1)
    (h2 : now2 - (get_ip_data st now1 order1 net1 p1).state.timestamp <
      CACHE_TTL_SECONDS) :
    (get_ip_data (get_ip_data st now1 order1 net1 p1).state now2 order2 net2
        p2).result =
      some ⟨r1.provider, r1.ip, r1.country_code, (ping_ip p2).getD 0⟩ ∧
    (get_ip_data st now1 order1 net1 p1).probed = true ∧
    (get_ip_data (get_ip_data st now1 order1 net1 p1).state now2 order2 net2
        p2).probed = true ∧
    r1.ping_ms = (ping_ip p1).getD 0 := by
  obtain ⟨m, hm, hp, hip, hcc, hprobed, hping⟩ :=
    resolve_success_state st now1 order1 net1 p1 r1 h1
  refine ⟨?_, hprobed, ?_, hping⟩
  · generalize hst : (get_ip_data st now1 order1 net1 p1).state = st1 at hm h2
    simp [get_ip_data, hm, h2, hp, hip, hcc]
  · generalize hst : (get_ip_data st now1 order1 net1 p1).state = st1 at hm h2
    simp [get_ip_data, hm, h2]

/-- C5 witness: fresh success at time 0 with a failed probe, second call at
time 10 with its own probe outcome — identical identity fields on both calls,
each call's `ping_ms` from its own probe. -/
theorem identity_idempotent_probe_fresh_witness :
    (get_ip_data
        (get_ip_data ⟨none, 0⟩ 0 providers
          (fun _ => some ⟨200, "application/json",
            some (.obj [("ip", .str "203.0.113.5"), ("country_code", .str "us")]),
            12, 48⟩)
          none).state
        10 providers (fun _ => none) none).result =
      some ⟨"ipapi", "203.0.113.5", "US", (ping_ip none).getD 0⟩ ∧
    (get_ip_data ⟨none, 0⟩ 0 providers
        (fun _ => some ⟨200, "application/json",
          some (.obj [("ip", .str "203.0.113.5"), ("country_code", .str "us")]),
          12, 48⟩)
        none).probed = true := by
  have hfirst : (get_ip_data ⟨none, 0⟩ 0 providers
      (fun _ => some ⟨200, "application/json",
        some (.obj [("ip", .str "203.0.113.5"), ("country_code", .str "us")]),
        12, 48⟩)
      none).result =
      some ⟨"ipapi", "203.0.113.5", "US", (0 : ℚ)⟩ := rfl
  have h := identity_idempotent_probe_fresh ⟨none, 0⟩ 0 10 providers providers
    (fun _ => some ⟨200, "application/json",
      some (.obj [("ip", .str "203.0.113.5"), ("country_code", .str "us")]),
      12, 48⟩)
    (fun _ => none)
    none none
    ⟨"ipapi", "203.0.113.5", "US", (0 : ℚ)⟩ hfirst
    (by show (10 : ℚ) - (0 : ℚ) < CACHE_TTL_SECONDS
        norm_num [CACHE_TTL_SECONDS])
  exact ⟨h.1, h.2.1⟩

/-- C6: probe failure degrades, never fails — a failed process, unmatched
output or unparseable latency makes `ping_ip` return `None`; the resolver maps
that to `ping_ms = 0.0` in an otherwise-successful result, and the probe
outcome never changes whether resolution succeeds. -/
theorem probe_degrades :
    ping_ip none = none ∧
    (∀ out : String, searchTime out.data = none → ping_ip (some out) = none) ∧
    (∀ out : String, ∀ cap : String, searchTime out.data = some cap →
        pyFloat cap = none → ping_ip (some out) = none) ∧
    (∀ st : CacheState, ∀ now : ℚ, ∀ order : List Provider,
        ∀ net : String → Option RawResponse, ∀ procOut : Option String,
        ∀ r : ResolutionResult, ping_ip procOut = none →
        (get_ip_data st now order net procOut).result = some r →
        r.ping_ms = 0) ∧
    (∀ st : CacheState, ∀ now : ℚ, ∀ order : List Provider,
        ∀ net : String → Option RawResponse,
        ∀ procOut procAlt : Option String,
        ((get_ip_data st now order net procOut).result = none ↔
          (get_ip_data st now order net procAlt).result = none)) := by
  refine ⟨rfl, ?_, ?_, ?_, ?_⟩
  · intro out h
    simp [ping_ip, h]
  · intro out cap h1 h2
    simp [ping_ip, h1, h2]
  · intro st now order net procOut r hping hres
    obtain ⟨m, _, _, _, _, _, hr⟩ :=
      resolve_success_state st now order net procOut r hres
    rw [hr, hping]
    rfl
  · intro st now order net procOut procAlt
    rw [resolve_result_none_iff, resolve_result_none_iff]

/-- C6 witness: a timed-out process, output with no latency figure, and output
whose captured group `float()` rejects all degrade to `ping_ms = 0.0` on an
otherwise-successful resolution. -/
theorem probe_degrades_witness :
    ping_ip (some "ping: unknown host") = none ∧
    ping_ip (some "time=1.2.3 ms") = none ∧
    (get_ip_data ⟨some ⟨"ipapi", "203.0.113.5", "US", 12, 48, 1⟩, 0⟩ 1
        providers (fun _ => none) none).result =
      some ⟨"ipapi", "203.0.113.5", "US", 0⟩ ∧
    (⟨"ipapi", "203.0.113.5", "US", 0⟩ : ResolutionResult).ping_ms = 0 := by
  have hc : (1 : ℚ) < CACHE_TTL_SECONDS := by
    norm_num [CACHE_TTL_SECONDS]
  have h3 : (get_ip_data ⟨some ⟨"ipapi", "203.0.113.5", "US", 12, 48, 1⟩, 0⟩ 1
      providers (fun _ => none) none).result =
      some ⟨"ipapi", "203.0.113.5", "US", 0⟩ := by
    simp [get_ip_data, hc, ping_ip]
  refine ⟨probe_degrades.2.1 "ping: unknown host" rfl,
    probe_degrades.2.2.1 "time=1.2.3 ms" "1.2.3" rfl rfl, h3, ?_⟩
  exact probe_degrades.2.2.2.1 ⟨some ⟨"ipapi", "203.0.113.5", "US", 12, 48, 1⟩, 0⟩
    1 providers (fun _ => none) none ⟨"ipapi", "203.0.113.5", "US", 0⟩ rfl h3

/-- C7: no exception from a provider attempt or from the probe escapes the
resolver — modelled exceptions (transport failures, JSON decode errors, probe
failures) are absorbed, and the only failure the caller ever sees is the
empty result, which occurs exactly on cache miss with every provider in the
attempt order rejected. -/
theorem only_exhaustion_fails (st : CacheState) (now : ℚ)
    (order : List Provider) (net : String → Option RawResponse)
    (procOut : Option String) :
    (get_ip_data st now order net procOut).result = none ↔
      ((st.data = none ∨ ¬ now - st.timestamp < CACHE_TTL_SECONDS) ∧
        ∀ p ∈ order, ∀ i, tryProvider net p i = none) := by
  rw [resolve_result_none_iff]
  unfold fetch_ip_metadata
  rw [fetchLoop_none_iff]

/-- C7 witness: transport failure everywhere on a cold cache is the empty
result; a malformed probe on a warm cache still succeeds. -/
theorem only_exhaustion_fails_witness :
    (get_ip_data ⟨none, 0⟩ 5 providers (fun _ => none) none).result = none ∧
    ¬ (get_ip_data ⟨some ⟨"ipapi", "203.0.113.5", "US", 12, 48, 1⟩, 0⟩ 1
        providers (fun _ => none) (some "garbage")).result = none := by
  constructor
  · exact (only_exhaustion_fails ⟨none, 0⟩ 5 providers (fun _ => none)
      none).mpr ⟨Or.inl rfl, fun _ _ _ => rfl⟩
  · intro h
    have := (only_exhaustion_fails
      ⟨some ⟨"ipapi", "203.0.113.5", "US", 12, 48, 1⟩, 0⟩ 1 providers
      (fun _ => none) (some "garbage")).mp h
    rcases this.1 with h1 | h1
    · exact absurd h1 (by simp)
    · exact h1 (by norm_num [CACHE_TTL_SECONDS])

/-- The uppercased string is empty exactly when the original is. -/
theorem pyUpper_eq_empty (s : String) : pyUpper s = "" ↔ s = "" := by
  cases s with
  | mk data => simp [pyUpper, String.ext_iff]

/-- C9 counterexample: a `"country_code"` key that is present with the empty
string as value also yields an empty extracted country code, so a missing key
is not the only way to obtain the empty string. -/
theorem country_code_cex :
    extractMeta ⟨"ipapi", "https://ipapi.co/json", "country_code"⟩
        (.obj [("ip", .str "203.0.113.5"), ("country_code", .str "")]) 0 0 1 =
      some ⟨"ipapi", "203.0.113.5", "", 0, 0, 1⟩ ∧
    pyGet [("ip", Json.str "203.0.113.5"), ("country_code", Json.str "")]
        "country_code" = some (Json.str "") :=
  ⟨rfl, rfl⟩

/-- C9 (amended): the country code is `str()` then `upper()` of whatever value
sits under the provider's country key; a missing key, or a present value whose
stringification is empty (i.e. the empty-string value), yields the empty
string; a JSON `null` yields `"NONE"` and a numeric value yields the
uppercasing of its decimal text — never the empty default. -/
theorem country_code_stringified (p : Provider) (kvs : List (String × Json))
    (ip : String) (lat : ℚ) (bytes att : Nat)
    (hip : pyGet kvs "ip" = some (.str ip)) :
    extractMeta p (.obj kvs) lat bytes att =
      some ⟨p.name, ip,
        pyUpper (pyStr ((pyGet kvs p.codeKey).getD (.str ""))),
        lat, bytes, att⟩ ∧
    (pyGet kvs p.codeKey = none →
        pyUpper (pyStr ((pyGet kvs p.codeKey).getD (.str ""))) = "") ∧
    (pyGet kvs p.codeKey = some .null →
        pyUpper (pyStr ((pyGet kvs p.codeKey).getD (.str ""))) = "NONE") ∧
    (∀ n : Int, pyGet kvs p.codeKey = some (.num n) →
        pyUpper (pyStr ((pyGet kvs p.codeKey).getD (.str ""))) =
          pyUpper (toString n)) ∧
    (∀ s : String, pyGet kvs p.codeKey = some (.str s) →
        (pyUpper (pyStr ((pyGet kvs p.codeKey).getD (.str ""))) = "" ↔
          s = "")) := by
  refine ⟨by simp [extractMeta, hip], ?_, ?_, ?_, ?_⟩
  · intro h
    rw [h]
    rfl
  · intro h
    rw [h]
    rfl
  · intro n h
    rw [h]
    rfl
  · intro s h
    rw [h]
    exact pyUpper_eq_empty s

/-- C9 witness: a `null` country value stringifies to `"NONE"` and an integer
value to its decimal text — neither falls back to the empty default. -/
theorem country_code_stringified_witness :
    extractMeta ⟨"ipwhois", "https://ipwho.is/", "country_code"⟩
        (.obj [("ip", .str "203.0.113.5"), ("country_code", .null)]) 3 7 2 =
      some ⟨"ipwhois", "203.0.113.5", "NONE", 3, 7, 2⟩ ∧
    extractMeta ⟨"ipsb", "https://api.ip.sb/geoip", "country_code"⟩
        (.obj [("ip", .str "203.0.113.5"), ("country_code", .num 42)]) 3 7 2 =
      some ⟨"ipsb", "203.0.113.5", "42", 3, 7, 2⟩ := by
  constructor
  · have h := country_code_stringified
      ⟨"ipwhois", "https://ipwho.is/", "country_code"⟩
      [("ip", .str "203.0.113.5"), ("country_code", .null)]
      "203.0.113.5" 3 7 2 rfl
    rw [h.1]
    have := h.2.2.1 rfl
    rw [this]
  · have h := country_code_stringified
      ⟨"ipsb", "https://api.ip.sb/geoip", "country_code"⟩
      [("ip", .str "203.0.113.5"), ("country_code", .num 42)]
      "203.0.113.5" 3 7 2 rfl
    rw [h.1]
    have := h.2.2.2.1 42 rfl
    rw [this]
    rfl

/-- C10: the cache TTL is non-sliding — a cache-hit call leaves the cached
metadata and its stored timestamp untouched (the timestamp is written only
together with freshly fetched metadata), and a call TTL seconds or more after
the stored timestamp always takes the fresh provider loop, regardless of
intervening hits. -/
theorem cache_non_sliding (st : CacheState) (now : ℚ) (order : List Provider)
    (net : String → Option RawResponse) (procOut : Option String) :
    ((get_ip_data st now order net procOut).cacheHit = true →
        (get_ip_data st now order net procOut).state = st) ∧
    ((get_ip_data st now order net procOut).state ≠ st →
        (get_ip_data st now order net procOut).cacheHit = false ∧
        ∃ m : Metadata, (fetch_ip_metadata net order).result = some m ∧
          (get_ip_data st now order net procOut).state = ⟨some m, now⟩) ∧
    (∀ later : ℚ, ∀ order2 : List Provider,
        ∀ net2 : String → Option RawResponse, ∀ procOut2 : Option String,
        CACHE_TTL_SECONDS ≤
          later - (get_ip_data st now order net procOut).state.timestamp →
        (get_ip_data (get_ip_data st now order net procOut).state later order2
            net2 procOut2).cacheHit = false) := by
  refine ⟨?_, ?_, ?_⟩
  · intro hhit
    cases hd : st.data with
    | some cached =>
      by_cases hc : now - st.timestamp < CACHE_TTL_SECONDS
      · simp [get_ip_data, hd, hc]
      · cases hf : (fetch_ip_metadata net order).result with
        | none => simp [get_ip_data, hd, hc, hf]
        | some m => simp [get_ip_data, hd, hc, hf] at hhit
    | none =>
      cases hf : (fetch_ip_metadata net order).result with
      | none => simp [get_ip_data, hd, hf]
      | some m => simp [get_ip_data, hd, hf] at hhit
  · intro hne
    cases hd : st.data with
    | some cached =>
      by_cases hc : now - st.timestamp < CACHE_TTL_SECONDS
      · simp [get_ip_data, hd, hc] at hne
      · cases hf : (fetch_ip_metadata net order).result with
        | none => simp [get_ip_data, hd, hc, hf] at hne
        | some m =>
          refine ⟨by simp [get_ip_data, hd, hc, hf], m, hf.symm ▸ rfl, ?_⟩
          simp [get_ip_data, hd, hc, hf]
    | none =>
      cases hf : (fetch_ip_metadata net order).result with
      | none => simp [get_ip_data, hd, hf] at hne
      | some m =>
        refine ⟨by simp [get_ip_data, hd, hf], m, hf.symm ▸ rfl, ?_⟩
        simp [get_ip_data, hd, hf]
  · intro later order2 net2 procOut2 hle
    generalize (get_ip_data st now order net procOut).state = st1 at hle ⊢
    have hc : ¬ later - st1.timestamp < CACHE_TTL_SECONDS := not_lt.mpr hle
    cases hd : st1.data with
    | some cached =>
      cases hf : (fetch_ip_metadata net2 order2).result with
      | none => simp [get_ip_data, hd, hc, hf]
      | some m => simp [get_ip_data, hd, hc, hf]
    | none =>
      cases hf : (fetch_ip_metadata net2 order2).result with
      | none => simp [get_ip_data, hd, hf]
      | some m => simp [get_ip_data, hd, hf]

/-- C10 witness: a hit at time 1 on an entry stored at time 0 leaves the
state untouched, and a later call at exactly time TTL is not a hit. -/
theorem cache_non_sliding_witness :
    (get_ip_data ⟨some ⟨"ipapi", "203.0.113.5", "US", 12, 48, 1⟩, 0⟩ 1
        providers (fun _ => none) none).state =
      (⟨some ⟨"ipapi", "203.0.113.5", "US", 12, 48, 1⟩, 0⟩ : CacheState) ∧
    (get_ip_data
        (get_ip_data ⟨some ⟨"ipapi", "203.0.113.5", "US", 12, 48, 1⟩, 0⟩ 1
          providers (fun _ => none) none).state
        CACHE_TTL_SECONDS providers (fun _ => none) none).cacheHit = false := by
  have h := cache_non_sliding
    ⟨some ⟨"ipapi", "203.0.113.5", "US", 12, 48, 1⟩, 0⟩ 1 providers
    (fun _ => none) none
  have hc : (1 : ℚ) < CACHE_TTL_SECONDS := by norm_num [CACHE_TTL_SECONDS]
  have hhit : (get_ip_data ⟨some ⟨"ipapi", "203.0.113.5", "US", 12, 48, 1⟩, 0⟩
      1 providers (fun _ => none) none).cacheHit = true := by
    simp [get_ip_data, hc]
  have hstate := h.1 hhit
  refine ⟨hstate, h.2.2 CACHE_TTL_SECONDS providers (fun _ => none) none ?_⟩
  rw [hstate]
  norm_num

end IpApp
